import Mathlib

/-!
Verification of the link-time artifact-assembly layer of the rustc backend
(src/librustc/back/link.rs and src/librustc_back/target/mod.rs), shallowly
embedded: strings are lists of unicode scalar values, byte lengths are made
explicit through a UTF-8 size function, the archive builder is modelled by
its member sequence, and the diagnostic sink by the sequence of events it
receives.
-/

namespace Link

/-- Strings are modelled as lists of unicode scalar values (Rust `char`s). -/
abbrev Str := List Char

/-- Convert a Lean string literal into the model's string type. -/
def str (s : String) : Str := s.data

/-- Number of bytes in the UTF-8 encoding of one character. -/
def charUtf8Size (c : Char) : Nat :=
  if c.toNat < 0x80 then 1
  else if c.toNat < 0x800 then 2
  else if c.toNat < 0x10000 then 3
  else 4

/-- UTF-8 byte length of a string (Rust's `str::len`). -/
def utf8Len (s : Str) : Nat := (s.map charUtf8Size).sum

/-- First byte of the UTF-8 encoding of a character (what `s.as_bytes()[0]`
reads when the string starts with this character). -/
def utf8LeadByte (c : Char) : Nat :=
  if c.toNat < 0x80 then c.toNat
  else if c.toNat < 0x800 then 0xC0 + (c.toNat >>> 6)
  else if c.toNat < 0x10000 then 0xE0 + (c.toNat >>> 12)
  else 0xF0 + (c.toNat >>> 18)

/-- Characters gas accepts in symbols: `a-z`, `A-Z`, `0-9`, `.`, `_`, `$`
(the "legal symbols" arm of `sanitize`'s match). -/
def isLegalSymbolChar (c : Char) : Bool :=
  ('a'.toNat ≤ c.toNat && c.toNat ≤ 'z'.toNat) ||
  ('A'.toNat ≤ c.toNat && c.toNat ≤ 'Z'.toNat) ||
  ('0'.toNat ≤ c.toNat && c.toNat ≤ '9'.toNat) ||
  c == '_' || c == '.' || c == '$'

/-- Modelled from the spec: `char::is_XID_start` (a "valid identifier-start
character"); the standard library that implements the full Unicode property is
not among the sampled sources.  It is only ever applied to sanitized output,
which is proved below to be ASCII, so the ASCII-letter restriction is faithful
on every reachable input. -/
def is_XID_start (c : Char) : Bool :=
  ('a'.toNat ≤ c.toNat && c.toNat ≤ 'z'.toNat) ||
  ('A'.toNat ≤ c.toNat && c.toNat ≤ 'Z'.toNat)

/-- Hexadecimal digits of `n`, lowercase, zero-padded on the left to `width`
characters. -/
def toHexPadded (n width : Nat) : Str :=
  let ds := Nat.toDigits 16 n
  List.replicate (width - ds.length) '0' ++ ds

/-- Modelled from the spec: `char::escape_unicode` ("its Unicode escape
digits"); the standard library implementation is not among the sampled
sources.  It emits a backslash, a width marker (`x` for two digits, `u` for
four, `U` for eight) and the zero-padded lowercase hex scalar value; the
leading backslash is what `sanitize` slices off, so it is omitted here. -/
def escapeUnicodeTail (c : Char) : Str :=
  if c.toNat ≤ 0xff then 'x' :: toHexPadded c.toNat 2
  else if c.toNat ≤ 0xffff then 'u' :: toHexPadded c.toNat 4
  else 'U' :: toHexPadded c.toNat 8

/-- One arm of the character loop of `sanitize`: the string pushed onto
`result` for the character `c`. -/
def sanitizeChar (c : Char) : Str :=
  if c = '@' then str "$SP$"
  else if c = '~' then str "$UP$"
  else if c = '*' then str "$RP$"
  else if c = '&' then str "$BP$"
  else if c = '<' then str "$LT$"
  else if c = '>' then str "$GT$"
  else if c = '(' then str "$LP$"
  else if c = ')' then str "$RP$"
  else if c = ',' then str "$C$"
  else if c = '-' ∨ c = ':' then ['.']
  else if isLegalSymbolChar c then [c]
  else '$' :: escapeUnicodeTail c

/-- The accumulation loop of `sanitize`, before the underscore-qualification
step. -/
def sanitizeCore (s : Str) : Str :=
  s.foldl (fun result c => result ++ sanitizeChar c) []

/-- Underscore-qualification step at the end of `sanitize`: prefix the result
with `_` when it is non-empty and its first byte is neither `_` nor an
identifier-start character (the source inspects `result.as_bytes()[0]`). -/
def underscoreQualify (result : Str) : Str :=
  match result with
  | [] => []
  | c :: rest =>
    if utf8LeadByte c ≠ '_'.toNat ∧ is_XID_start (Char.ofNat (utf8LeadByte c)) = false then
      '_' :: (c :: rest)
    else
      c :: rest

/-- Name sanitation (`sanitize` in back/link.rs): escape characters gas does
not accept, then underscore-qualify anything that did not start as an
identifier. -/
def sanitize (s : Str) : Str :=
  underscoreQualify (sanitizeCore s)

/-- Decimal digit string of a natural number. -/
def decimalStr (n : Nat) : Str := Nat.toDigits 10 n

/-- The inner `push` helper of `mangle`: append the sanitized component
preceded by its byte length in decimal. -/
def manglePush (n : Str) (s : Str) : Str :=
  let sani := sanitize s
  n ++ decimalStr (utf8Len sani) ++ sani

/-- C++-style name mangling (`mangle` in back/link.rs): `_ZN`, a
length-prefixed sanitized component per path element, optionally a
length-prefixed sanitized hash, then `E`. -/
def mangle (path : List Str) (hash : Option Str) : Str :=
  let n := str "_ZN"
  let n := path.foldl manglePush n
  let n := match hash with
    | some s => manglePush n s
    | none => n
  n ++ ['E']

/-- One length-prefixed encoded component, as the grammar invariant describes
it: the exact decimal byte length of the sanitized component, then the
sanitized component. -/
def encodeComponent (s : Str) : Str :=
  decimalStr (utf8Len (sanitize s)) ++ sanitize s

/-- Mangling with a required hash component (`exported_name`). -/
def exported_name (path : List Str) (hash : Str) : Str :=
  mangle path (some hash)

/-- Alphabet used to disambiguate identical paths (`EXTRA_CHARS`). -/
def EXTRA_CHARS : Str :=
  str "abcdefghijklmnopqrstuvwxyzABCDEFGHIJKLMNOPQRSTUVWXYZ0123456789"

/-- Mangled name of an exported item (`mangle_exported_name`): the symbol
hash for the item's type, extended by three characters extracted base-62 from
the node id, then mangled onto the path.  The hash computed by
`get_symbol_hash` is passed in as an argument. -/
def mangle_exported_name (path : List Str) (hash : Str) (id : Nat) : Str :=
  let n := EXTRA_CHARS.length
  let extra1 := id % n
  let id1 := id / n
  let extra2 := id1 % n
  let id2 := id1 / n
  let extra3 := id2 % n
  let hash := hash ++ [EXTRA_CHARS.getD extra1 ' ',
                       EXTRA_CHARS.getD extra2 ' ',
                       EXTRA_CHARS.getD extra3 ' ']
  exported_name path hash

/-- The three disambiguation characters extracted from a node id. -/
def suffix3 (id : Nat) : Str :=
  [EXTRA_CHARS.getD (id % 62) ' ',
   EXTRA_CHARS.getD (id / 62 % 62) ' ',
   EXTRA_CHARS.getD (id / 62 / 62 % 62) ' ']

/-- Modelled from the spec: the serializer's `to_hex` ("hex-encodes"); the
library implementation is not among the sampled sources.  Each byte becomes
two lowercase hex digits. -/
def byteHex (b : Nat) : Str :=
  let v := b % 256
  [Nat.digitChar (v / 16), Nat.digitChar (v % 16)]

/-- Hex encoding of a byte sequence. -/
def toHexBytes (bs : List Nat) : Str :=
  (bs.map byteHex).flatten

/-- Truncation of the digest (`truncated_hash_result`): first 8 bytes of the
hasher's result, hex-encoded. -/
def truncated_hash_result (digestBytes : List Nat) : Str :=
  toHexBytes (digestBytes.take 8)

/-- Byte stream fed to the symbol hasher by `symbol_hash`, in feeding order:
crate name, a separator, crate hash, every linked crate's metadata blob, a
separator, the encoded type. -/
def symbolHashInput (crateName crateHash : Str) (metadataBlobs : List Str)
    (encodedTy : Str) : Str :=
  crateName ++ ['-'] ++ crateHash ++ metadataBlobs.flatten ++ ['-'] ++ encodedTy

/-- Symbol-type hash (`symbol_hash`): reset the hasher, feed the inputs in
order, truncate, and prefix with `h` so the hash never blends into adjacent
digits.  The SHA-256 digest itself lives outside the sampled sources and is
treated as a parameter mapping the fed byte stream to its digest bytes. -/
def symbol_hash (digest : Str → List Nat) (crateName crateHash : Str)
    (metadataBlobs : List Str) (encodedTy : Str) : Str :=
  'h' :: truncated_hash_result
    (digest (symbolHashInput crateName crateHash metadataBlobs encodedTy))

/-- Kinds of native libraries (`cstore::NativeStatic` and friends). -/
inductive NativeLibKind
  | NativeStatic
  | NativeFramework
  | NativeUnknown
deriving DecidableEq

/-- One member of an archive under construction: either a file added through
`add_file`, or the contents of a native static library added through
`add_native_library`.  Members carry the name they were added under. -/
inductive ArchiveMember
  | file (name : Str)
  | nativeLib (name : Str)
deriving DecidableEq

/-- The archive builder, modelled by the sequence of members appended so far;
`update_symbols`, `build` and `extend` do not change the member sequence. -/
structure ArchiveBuilder where
  members : List ArchiveMember
deriving DecidableEq

/-- Creation of an empty archive (`ArchiveBuilder::create`). -/
def ArchiveBuilder.create : ArchiveBuilder := ⟨[]⟩

/-- Append one file member (`add_file`). -/
def ArchiveBuilder.add_file (ab : ArchiveBuilder) (name : Str) : ArchiveBuilder :=
  ⟨ab.members ++ [ArchiveMember.file name]⟩

/-- Append the contents of a native static library (`add_native_library`). -/
def ArchiveBuilder.add_native_library (ab : ArchiveBuilder) (name : Str) :
    ArchiveBuilder :=
  ⟨ab.members ++ [ArchiveMember.nativeLib name]⟩

/-- Update the archive symbol table (`update_symbols`); member-preserving. -/
def ArchiveBuilder.update_symbols (ab : ArchiveBuilder) : ArchiveBuilder := ab

/-- Finalize the archive (`build`); member-preserving in this model. -/
def ArchiveBuilder.build (ab : ArchiveBuilder) : ArchiveBuilder := ab

/-- Reopen a built archive in append mode (`extend`); member-preserving. -/
def ArchiveBuilder.extend (ab : ArchiveBuilder) : ArchiveBuilder := ab

/-- Modelled from the spec: the fixed reserved member name for crate metadata
(`METADATA_FILENAME`, declared in back/archive.rs, which is not among the
sampled sources). -/
def METADATA_FILENAME : Str := str "rust.metadata.bin"

/-- Stem of a file name: everything before the last dot, or the whole name
when there is no dot (old `Path::filestem`). -/
def fileStem (f : Str) : Str :=
  match f.reverse.findIdx? (fun c => c == '.') with
  | none => f
  | some i => f.take (f.length - 1 - i)

/-- Replace the extension of a file name (old `Path::with_extension`): the
stem alone when the new extension is empty, otherwise stem, dot, extension. -/
def withExtension (f ext : Str) : Str :=
  if ext = [] then fileStem f else fileStem f ++ ['.'] ++ ext

/-- Name of the compressed-bytecode member: the object file name with a
`bytecode.deflate` extension (16 bytes long, never exactly 16 including the
stem, worked around deliberately in the source). -/
def bytecodeName (objFileName : Str) : Str :=
  withExtension objFileName (str "bytecode.deflate")

/-- Construction of an rlib (`link_rlib`), modelled by the member sequence of
the produced archive: the compiled object first, then the referenced native
static libraries, a symbol-table update, the OSX-specific build-then-extend
dance, and — when metadata and bytecode are requested — the metadata member
and the compressed-bytecode member strictly after all object members. -/
def link_rlib (withMetadata : Bool) (obj_filename : Str)
    (used_libraries : List (Str × NativeLibKind)) (is_like_osx : Bool) :
    ArchiveBuilder :=
  let ab := ArchiveBuilder.create
  let ab := ab.add_file obj_filename
  let ab := used_libraries.foldl (fun ab l =>
    match l.2 with
    | NativeLibKind.NativeStatic => ab.add_native_library l.1
    | NativeLibKind.NativeFramework => ab
    | NativeLibKind.NativeUnknown => ab) ab
  let ab := ab.update_symbols
  let ab := if is_like_osx then ab.build.extend else ab
  if withMetadata then
    let ab := ab.add_file METADATA_FILENAME
    let ab := ab.add_file (bytecodeName obj_filename)
    let ab := if !is_like_osx then ab.update_symbols else ab
    ab
  else ab

/-- Members contributed by the native-static-library loop of `link_rlib`. -/
def staticLibMembers (used_libraries : List (Str × NativeLibKind)) :
    List ArchiveMember :=
  used_libraries.filterMap (fun l =>
    match l.2 with
    | NativeLibKind.NativeStatic => some (ArchiveMember.nativeLib l.1)
    | NativeLibKind.NativeFramework => none
    | NativeLibKind.NativeUnknown => none)

/-- Removal of a named member from an archive (`Archive::remove_file`, which
runs `ar d` on the named member). -/
def removeFile (members : List Str) (name : Str) : List Str :=
  members.erase name

/-- LTO handling of one statically linked upstream crate (`add_static_crate`):
under LTO, drop `lib`/`.rlib` from the file name, remove the member named
`<stem>.o` from a copy of the archive, and pass the copy to the linker only
when a member ending in `.o` remains; without LTO, pass the archive as is.
Returns whether an archive is put on the link line, and the member list of
the archive that would be passed. -/
def add_static_crate (lto : Bool) (crateFileName : Str) (members : List Str) :
    Bool × List Str :=
  if lto then
    let name := (crateFileName.take (crateFileName.length - 5)).drop 3
    let remaining := removeFile members (name ++ str ".o")
    (remaining.any (fun s => (str ".o").isSuffixOf s), remaining)
  else
    (true, members)

/-- Per-target configuration record (`Target` in librustc_back/target/mod.rs).
The two dll/staticlib prefix fields carry a `_str` marker in their names. -/
structure Target where
  data_layout : Str
  llvm_target : Str
  linker : Str
  pre_link_args : List Str
  post_link_args : List Str
  cpu : Str
  features : Str
  dynamic_linking : Bool
  executables : Bool
  disable_stack_checking : Bool
  relocation_model : Str
  code_model : Str
  disable_redzone : Bool
  target_endian : Str
  target_word_size : Str
  eliminate_frame_pointer : Bool
  function_sections : Bool
  dll_prefix_str : Str
  dll_suffix : Str
  exe_suffix : Str
  staticlib_prefix_str : Str
  staticlib_suffix : Str
  is_like_osx : Bool
  is_like_windows : Bool
  linker_is_gnu : Bool
  has_rpath : Bool
  arch : Str
deriving DecidableEq

/-- Sentinel value the required fields of `Target::empty` start out with. -/
def unsetSentinel : Str := str "this field needs to be specified"

/-- Sane defaults for any target (`Target::empty`); the five required fields
hold the unset sentinel. -/
def Target.empty : Target where
  data_layout := unsetSentinel
  llvm_target := unsetSentinel
  linker := str "cc"
  pre_link_args := []
  post_link_args := [str "-lcompiler-rt"]
  cpu := str "generic"
  features := []
  dynamic_linking := false
  executables := false
  disable_stack_checking := true
  relocation_model := str "pic"
  code_model := str "default"
  disable_redzone := true
  target_endian := unsetSentinel
  target_word_size := unsetSentinel
  eliminate_frame_pointer := true
  function_sections := true
  dll_prefix_str := str "lib"
  dll_suffix := str ".so"
  exe_suffix := []
  staticlib_prefix_str := str "lib"
  staticlib_suffix := str ".a"
  is_like_osx := false
  is_like_windows := false
  linker_is_gnu := false
  has_rpath := false
  arch := unsetSentinel

/-- Validation of a target spec (`Target::verify`): reject the spec while any
of the five required fields still holds the sentinel, otherwise return it
unchanged. -/
def Target.verify (t : Target) : Option Target :=
  if t.data_layout = unsetSentinel then none
  else if t.llvm_target = unsetSentinel then none
  else if t.target_endian = unsetSentinel then none
  else if t.target_word_size = unsetSentinel then none
  else if t.arch = unsetSentinel then none
  else some t

/-- Events observable at the diagnostic sink. -/
inductive DiagEvent
  | err (msg : Str)
  | warn (msg : Str)
  | note (msg : Str)
  | fatal (msg : Str)
  | bug (msg : Str)
  | abortIfErrors
deriving DecidableEq

/-- Relocation models known to `run_passes`. -/
inductive RelocModel
  | RelocPIC
  | RelocStatic
  | RelocDefault
  | RelocDynamicNoPic
deriving DecidableEq

/-- Code models known to `run_passes`. -/
inductive CodeModel
  | CodeModelDefault
  | CodeModelSmall
  | CodeModelKernel
  | CodeModelMedium
  | CodeModelLarge
deriving DecidableEq

/-- The relocation-model match of `run_passes`. -/
def parseRelocModel (s : Str) : Option RelocModel :=
  if s = str "pic" then some RelocModel.RelocPIC
  else if s = str "static" then some RelocModel.RelocStatic
  else if s = str "default" then some RelocModel.RelocDefault
  else if s = str "dynamic-no-pic" then some RelocModel.RelocDynamicNoPic
  else none

/-- The code-model match of `run_passes`. -/
def parseCodeModel (s : Str) : Option CodeModel :=
  if s = str "default" then some CodeModel.CodeModelDefault
  else if s = str "small" then some CodeModel.CodeModelSmall
  else if s = str "kernel" then some CodeModel.CodeModelKernel
  else if s = str "medium" then some CodeModel.CodeModelMedium
  else if s = str "large" then some CodeModel.CodeModelLarge
  else none

/-- Configuration-checking prefix of `write::run_passes`: an unknown
relocation or code model is reported through `sess.err` followed by
`sess.abort_if_errors()` and an early return; on success both models are
resolved and no diagnostics are emitted. -/
def run_passes_config (reloc_model_arg code_model_arg : Str) :
    List DiagEvent × Option (RelocModel × CodeModel) :=
  match parseRelocModel reloc_model_arg with
  | none =>
      ([DiagEvent.err (str "is not a valid relocation mode"),
        DiagEvent.abortIfErrors], none)
  | some reloc_model =>
      match parseCodeModel code_model_arg with
      | none =>
          ([DiagEvent.err (str "is not a valid code model"),
            DiagEvent.abortIfErrors], none)
      | some code_model => ([], some (reloc_model, code_model))

/-- Output artifact kinds (`config::CrateType`). -/
inductive CrateType
  | CrateTypeExecutable
  | CrateTypeDylib
  | CrateTypeRlib
  | CrateTypeStaticlib
deriving DecidableEq

/-- Check whether the target supports the crate type
(`invalid_output_for_target`). -/
def invalid_output_for_target (dynamic_linking executables : Bool)
    (crate_type : CrateType) : Bool :=
  match dynamic_linking, executables, crate_type with
  | false, _, CrateType.CrateTypeDylib => true
  | _, false, CrateType.CrateTypeExecutable => true
  | _, _, _ => false

/-- The per-crate-type check at the top of `link_binary`: an output kind the
target does not support is reported through `sess.bug`, which aborts at
once. -/
def link_binary_check (dynamic_linking executables : Bool)
    (crate_type : CrateType) : List DiagEvent :=
  if invalid_output_for_target dynamic_linking executables crate_type then
    [DiagEvent.bug (str "invalid output type for target os")]
  else []

/-- User-write permission bit (`io::UserWrite`). -/
def UserWrite : Nat := 0o200

/-- Pre-flight writability check (`is_writeable`), over the result of
`Path::stat`: a stat error counts as writeable; otherwise the permission
bits must include the user-write bit. -/
def is_writeable (stat : Option Nat) : Bool :=
  match stat with
  | none => true
  | some perm => perm &&& UserWrite == UserWrite

/-- The writability pre-flight of `link_binary_output`, over the stat results
of the object file and the output file: a fatal diagnostic for the output
file when it is not writeable, otherwise one for the object file when that is
not writeable. -/
def link_binary_output_check (obj_stat out_stat : Option Nat) :
    List DiagEvent :=
  let obj_is_writeable := is_writeable obj_stat
  let out_is_writeable := is_writeable out_stat
  if !out_is_writeable then
    [DiagEvent.fatal (str "output file is not writeable -- check its permissions.")]
  else if !obj_is_writeable then
    [DiagEvent.fatal (str "object file is not writeable -- check its permissions.")]
  else []

/-- Artifact file-name derivation (`filename_for_input`); paths are modelled
by their final component, so `with_filename` replaces the whole string and
`with_extension` swaps the extension of it. -/
def filename_for_input (crate_type : CrateType) (t : Target)
    (name extra_filename out_filename : Str) : Str :=
  let libname := name ++ extra_filename
  match crate_type with
  | CrateType.CrateTypeRlib => str "lib" ++ libname ++ str ".rlib"
  | CrateType.CrateTypeDylib => t.dll_prefix_str ++ libname ++ t.dll_suffix
  | CrateType.CrateTypeStaticlib => str "lib" ++ libname ++ str ".a"
  | CrateType.CrateTypeExecutable => withExtension out_filename t.exe_suffix

/-! Helper lemmas about sanitization. -/

theorem foldl_sanitizeChar_append (s : Str) (r : Str) :
    s.foldl (fun result c => result ++ sanitizeChar c) r
      = r ++ (s.map sanitizeChar).flatten := by
  induction s generalizing r with
  | nil => simp
  | cons c cs ih => simp [ih, List.append_assoc]

theorem sanitizeCore_eq_flatten (s : Str) :
    sanitizeCore s = (s.map sanitizeChar).flatten := by
  simpa using foldl_sanitizeChar_append s []

theorem digitChar_legal (m : Nat) (h : m < 16) :
    isLegalSymbolChar (Nat.digitChar m) = true := by
  interval_cases m <;> decide

theorem toDigitsCore_legal (fuel n : Nat) (acc : Str)
    (hacc : ∀ c ∈ acc, isLegalSymbolChar c = true) :
    ∀ c ∈ Nat.toDigitsCore 16 fuel n acc, isLegalSymbolChar c = true := by
  induction fuel generalizing n acc with
  | zero => simpa [Nat.toDigitsCore] using hacc
  | succ fuel ih =>
    rw [Nat.toDigitsCore]
    split
    · intro c hc
      rcases List.mem_cons.mp hc with rfl | hc
      · exact digitChar_legal _ (Nat.mod_lt _ (by norm_num))
      · exact hacc c hc
    · refine ih _ _ ?_
      intro c hc
      rcases List.mem_cons.mp hc with rfl | hc
      · exact digitChar_legal _ (Nat.mod_lt _ (by norm_num))
      · exact hacc c hc

theorem toHexPadded_legal (n width : Nat) :
    ∀ c ∈ toHexPadded n width, isLegalSymbolChar c = true := by
  intro c hc
  unfold toHexPadded at hc
  rcases List.mem_append.mp hc with hc | hc
  · rw [List.eq_of_mem_replicate hc]; decide
  · exact toDigitsCore_legal _ _ _ (by intro c h; cases h) c hc

theorem escapeUnicodeTail_legal (c : Char) :
    ∀ d ∈ escapeUnicodeTail c, isLegalSymbolChar d = true := by
  intro d hd
  unfold escapeUnicodeTail at hd
  split at hd
  · rcases List.mem_cons.mp hd with rfl | hd
    · decide
    · exact toHexPadded_legal _ _ d hd
  · split at hd
    · rcases List.mem_cons.mp hd with rfl | hd
      · decide
      · exact toHexPadded_legal _ _ d hd
    · rcases List.mem_cons.mp hd with rfl | hd
      · decide
      · exact toHexPadded_legal _ _ d hd

theorem sanitizeChar_legal (c : Char) :
    ∀ d ∈ sanitizeChar c, isLegalSymbolChar d = true := by
  by_cases h1 : c = '@'
  · subst h1; decide
  by_cases h2 : c = '~'
  · subst h2; decide
  by_cases h3 : c = '*'
  · subst h3; decide
  by_cases h4 : c = '&'
  · subst h4; decide
  by_cases h5 : c = '<'
  · subst h5; decide
  by_cases h6 : c = '>'
  · subst h6; decide
  by_cases h7 : c = '('
  · subst h7; decide
  by_cases h8 : c = ')'
  · subst h8; decide
  by_cases h9 : c = ','
  · subst h9; decide
  by_cases h10 : c = '-' ∨ c = ':'
  · rcases h10 with rfl | rfl <;> decide
  by_cases h11 : isLegalSymbolChar c = true
  · intro d hd
    unfold sanitizeChar at hd
    rw [if_neg h1, if_neg h2, if_neg h3, if_neg h4, if_neg h5, if_neg h6,
        if_neg h7, if_neg h8, if_neg h9, if_neg h10, if_pos h11] at hd
    rw [List.mem_singleton.mp hd]
    exact h11
  · intro d hd
    unfold sanitizeChar at hd
    rw [if_neg h1, if_neg h2, if_neg h3, if_neg h4, if_neg h5, if_neg h6,
        if_neg h7, if_neg h8, if_neg h9, if_neg h10,
        if_neg (by simpa using h11)] at hd
    rcases List.mem_cons.mp hd with rfl | hd
    · decide
    · exact escapeUnicodeTail_legal c d hd

theorem sanitizeCore_legal (s : Str) :
    ∀ d ∈ sanitizeCore s, isLegalSymbolChar d = true := by
  intro d hd
  rw [sanitizeCore_eq_flatten] at hd
  rcases List.mem_flatten.mp hd with ⟨l, hl, hdl⟩
  rcases List.mem_map.mp hl with ⟨c, _, rfl⟩
  exact sanitizeChar_legal c d hdl

theorem underscoreQualify_cons (c : Char) (rest : Str) :
    underscoreQualify (c :: rest)
      = if utf8LeadByte c ≠ '_'.toNat
           ∧ is_XID_start (Char.ofNat (utf8LeadByte c)) = false then
          '_' :: (c :: rest)
        else c :: rest := rfl

theorem underscoreQualify_legal (t : Str)
    (ht : ∀ d ∈ t, isLegalSymbolChar d = true) :
    ∀ d ∈ underscoreQualify t, isLegalSymbolChar d = true := by
  rcases t with _ | ⟨c, rest⟩
  · intro d hd
    cases hd
  · intro d hd
    rw [underscoreQualify_cons] at hd
    split at hd
    · rcases List.mem_cons.mp hd with rfl | hd
      · decide
      · exact ht d hd
    · exact ht d hd

theorem sanitize_all_legal (s : Str) :
    ∀ d ∈ sanitize s, isLegalSymbolChar d = true :=
  underscoreQualify_legal _ (sanitizeCore_legal s)

theorem legal_toNat_lt (c : Char) (h : isLegalSymbolChar c = true) :
    c.toNat < 128 := by
  have ha : 'z'.toNat = 122 := rfl
  have hb : 'Z'.toNat = 90 := rfl
  have hc : '9'.toNat = 57 := rfl
  simp only [isLegalSymbolChar, Bool.or_eq_true, Bool.and_eq_true,
    decide_eq_true_eq, beq_iff_eq] at h
  rcases h with ((((⟨_, h⟩ | ⟨_, h⟩) | ⟨_, h⟩) | rfl) | rfl) | rfl
  · omega
  · omega
  · omega
  · decide
  · decide
  · decide

theorem charUtf8Size_of_legal (c : Char) (h : isLegalSymbolChar c = true) :
    charUtf8Size c = 1 := by
  have := legal_toNat_lt c h
  unfold charUtf8Size
  rw [if_pos (by omega)]

theorem utf8Len_of_legal (t : Str) (h : ∀ c ∈ t, isLegalSymbolChar c = true) :
    utf8Len t = t.length := by
  induction t with
  | nil => rfl
  | cons c cs ih =>
    have h1 : charUtf8Size c = 1 := charUtf8Size_of_legal c (h c (by simp))
    have h2 := ih (fun x hx => h x (by simp [hx]))
    simp only [utf8Len, List.map_cons, List.sum_cons, List.length_cons]
    simp only [utf8Len] at h2
    omega

theorem utf8Len_sanitize_eq_length (s : Str) :
    utf8Len (sanitize s) = (sanitize s).length :=
  utf8Len_of_legal _ (sanitize_all_legal s)

/-! Helper lemmas about mangling. -/

theorem foldl_manglePush (path : List Str) (n : Str) :
    path.foldl manglePush n = n ++ (path.map encodeComponent).flatten := by
  induction path generalizing n with
  | nil => simp
  | cons p ps ih =>
    simp [manglePush, encodeComponent, ih, List.append_assoc]

theorem mangle_eq (path : List Str) (hash : Option Str) :
    mangle path hash
      = str "_ZN" ++ (path.map encodeComponent).flatten
          ++ (match hash with | some s => encodeComponent s | none => [])
          ++ ['E'] := by
  cases hash with
  | none => simp [mangle, foldl_manglePush]
  | some s =>
    simp [mangle, foldl_manglePush, manglePush, encodeComponent,
      List.append_assoc]

/-- C1: for every sequence of path components and every optional hash,
`mangle` produces `_ZN`, then for each component — the hash component
included, in the order given — the exact decimal byte length of the sanitized
component followed by the sanitized component, and a final `E`; in
particular the result starts with `_ZN` and ends with `E`. -/
theorem mangle_grammar (path : List Str) (hash : Option Str) :
    mangle path hash
      = str "_ZN"
          ++ ((path ++ (match hash with | some s => [s] | none => [])).map
                (fun s => decimalStr (utf8Len (sanitize s)) ++ sanitize s)).flatten
          ++ ['E']
    ∧ (str "_ZN").isPrefixOf (mangle path hash) = true
    ∧ (mangle path hash).getLast? = some 'E' := by
  have hEq : mangle path hash
      = str "_ZN"
          ++ ((path ++ (match hash with | some s => [s] | none => [])).map
              (fun s => decimalStr (utf8Len (sanitize s)) ++ sanitize s)).flatten
          ++ ['E'] := by
    rw [mangle_eq,
      show (fun s : Str => decimalStr (utf8Len (sanitize s)) ++ sanitize s)
        = encodeComponent from rfl]
    cases hash <;> simp [List.append_assoc]
  refine ⟨hEq, ?_, ?_⟩
  · rw [hEq, List.append_assoc]
    exact List.isPrefixOf_iff_prefix.mpr (List.prefix_append _ _)
  · rw [hEq]
    exact List.getLast?_concat _

/-- C2: every character of the sanitized form of any input string lies in
the set `[A-Za-z0-9_.$]`; and whenever the accumulated result is non-empty
and its first character is neither an underscore nor an identifier-start
character, the whole result is prefixed with an underscore. -/
theorem sanitize_character_set (s : Str) :
    (∀ c ∈ sanitize s, isLegalSymbolChar c = true)
    ∧ (∀ c rest, sanitizeCore s = c :: rest →
        utf8LeadByte c ≠ '_'.toNat →
        is_XID_start (Char.ofNat (utf8LeadByte c)) = false →
        sanitize s = '_' :: sanitizeCore s) := by
  refine ⟨sanitize_all_legal s, ?_⟩
  intro c rest hcore hne hxid
  unfold sanitize
  rw [hcore, underscoreQualify_cons, if_pos ⟨hne, hxid⟩]

/-- C2 witness: the digit-initial input `9` is underscore-qualified, and the
first character of its sanitized form is in the legal set. -/
theorem sanitize_character_set_witness :
    isLegalSymbolChar '_' = true
    ∧ sanitize (str "9") = '_' :: sanitizeCore (str "9") := by
  refine ⟨?_, ?_⟩
  · exact (sanitize_character_set (str "9")).1 '_' (by decide)
  · exact (sanitize_character_set (str "9")).2 '9' [] (by decide) (by decide)
      (by decide)

theorem toHexBytes_length (bs : List Nat) :
    (toHexBytes bs).length = 2 * bs.length := by
  induction bs with
  | nil => rfl
  | cons b rest ih =>
    simp only [toHexBytes, List.map_cons, List.flatten_cons,
      List.length_append, List.length_cons] at *
    simp [byteHex, ih]
    omega

/-- C3: the symbol hash is a function of the crate name, crate hash, linked
metadata blobs and encoded type only; it feeds the hasher, in order, the
crate name, a separator, the crate hash, every metadata blob, a separator and
the encoded type, truncates the digest to its first 8 bytes, hex-encodes
them to 16 digits, and prefixes the letter `h`, so the result has 17
characters and never begins with a digit. -/
theorem symbol_hash_spec (digest : Str → List Nat) (crateName crateHash : Str)
    (metadataBlobs : List Str) (encodedTy : Str)
    (hdigest : ∀ input, (digest input).length = 32) :
    symbol_hash digest crateName crateHash metadataBlobs encodedTy
        = 'h' :: toHexBytes ((digest (crateName ++ ['-'] ++ crateHash
            ++ metadataBlobs.flatten ++ ['-'] ++ encodedTy)).take 8)
    ∧ (symbol_hash digest crateName crateHash metadataBlobs encodedTy).length
        = 17
    ∧ (symbol_hash digest crateName crateHash metadataBlobs encodedTy).head?
        = some 'h'
    ∧ ∀ c, (symbol_hash digest crateName crateHash metadataBlobs
          encodedTy).head? = some c → c.isDigit = false := by
  refine ⟨rfl, ?_, rfl, ?_⟩
  · have h8 : ((digest (symbolHashInput crateName crateHash metadataBlobs
        encodedTy)).take 8).length = 8 := by
      rw [List.length_take, hdigest]
      decide
    simp only [symbol_hash, truncated_hash_result, List.length_cons,
      toHexBytes_length, h8]
  · intro c hc
    simp only [symbol_hash, List.head?_cons, Option.some.injEq] at hc
    rw [← hc]
    decide

/-- C3 witness: at a concrete 32-byte digest function the symbol hash has 17
characters. -/
theorem symbol_hash_spec_witness :
    (symbol_hash (fun _ => List.replicate 32 0) (str "mycrate") (str "svh")
        [str "meta"] (str "ty")).length = 17 :=
  (symbol_hash_spec (fun _ => List.replicate 32 0) (str "mycrate") (str "svh")
    [str "meta"] (str "ty") (fun _ => by simp)).2.1

/-! Helper lemmas about the node-id disambiguation suffix. -/

theorem mangle_exported_name_eq (path : List Str) (hash : Str) (id : Nat) :
    mangle_exported_name path hash id
      = exported_name path (hash ++ suffix3 id) := rfl

theorem getD_mem_of_lt (l : Str) (i : Nat) (d : Char) (h : i < l.length) :
    l.getD i d ∈ l := by
  rw [List.getD_eq_getElem l d h]
  exact List.getElem_mem h

theorem suffix3_legal (id : Nat) :
    ∀ c ∈ suffix3 id, isLegalSymbolChar c = true := by
  have hlen : EXTRA_CHARS.length = 62 := by decide
  have hall : ∀ c ∈ EXTRA_CHARS, isLegalSymbolChar c = true := by decide
  intro c hc
  unfold suffix3 at hc
  rcases List.mem_cons.mp hc with rfl | hc
  · exact hall _ (getD_mem_of_lt _ _ _ (by rw [hlen]; omega))
  rcases List.mem_cons.mp hc with rfl | hc
  · exact hall _ (getD_mem_of_lt _ _ _ (by rw [hlen]; omega))
  rcases List.mem_cons.mp hc with rfl | hc
  · exact hall _ (getD_mem_of_lt _ _ _ (by rw [hlen]; omega))
  cases hc

theorem suffix3_inj (id1 id2 : Nat) (h : suffix3 id1 = suffix3 id2) :
    id1 % 238328 = id2 % 238328 := by
  have hinj : ∀ i : Fin 62, ∀ j : Fin 62,
      EXTRA_CHARS.getD i.val ' ' = EXTRA_CHARS.getD j.val ' ' → i = j := by
    decide
  unfold suffix3 at h
  injection h with e1 h
  injection h with e2 h
  injection h with e3 _
  have m1 : id1 % 62 = id2 % 62 :=
    congrArg Fin.val (hinj ⟨id1 % 62, by omega⟩ ⟨id2 % 62, by omega⟩ e1)
  have m2 : id1 / 62 % 62 = id2 / 62 % 62 :=
    congrArg Fin.val
      (hinj ⟨id1 / 62 % 62, by omega⟩ ⟨id2 / 62 % 62, by omega⟩ e2)
  have m3 : id1 / 62 / 62 % 62 = id2 / 62 / 62 % 62 :=
    congrArg Fin.val
      (hinj ⟨id1 / 62 / 62 % 62, by omega⟩ ⟨id2 / 62 / 62 % 62, by omega⟩ e3)
  omega

theorem sanitizeChar_of_legal (c : Char) (h : isLegalSymbolChar c = true) :
    sanitizeChar c = [c] := by
  have h1 : ¬ (c = '@') := fun e => absurd (e ▸ h) (by decide)
  have h2 : ¬ (c = '~') := fun e => absurd (e ▸ h) (by decide)
  have h3 : ¬ (c = '*') := fun e => absurd (e ▸ h) (by decide)
  have h4 : ¬ (c = '&') := fun e => absurd (e ▸ h) (by decide)
  have h5 : ¬ (c = '<') := fun e => absurd (e ▸ h) (by decide)
  have h6 : ¬ (c = '>') := fun e => absurd (e ▸ h) (by decide)
  have h7 : ¬ (c = '(') := fun e => absurd (e ▸ h) (by decide)
  have h8 : ¬ (c = ')') := fun e => absurd (e ▸ h) (by decide)
  have h9 : ¬ (c = ',') := fun e => absurd (e ▸ h) (by decide)
  have h10 : ¬ (c = '-' ∨ c = ':') := by
    rintro (rfl | rfl) <;> exact absurd h (by decide)
  unfold sanitizeChar
  rw [if_neg h1, if_neg h2, if_neg h3, if_neg h4, if_neg h5, if_neg h6,
      if_neg h7, if_neg h8, if_neg h9, if_neg h10, if_pos h]

theorem sanitizeCore_of_legal :
    ∀ t : Str, (∀ c ∈ t, isLegalSymbolChar c = true) → sanitizeCore t = t := by
  intro t
  induction t with
  | nil => intro _; rfl
  | cons c cs ih =>
    intro h
    rw [sanitizeCore_eq_flatten, List.map_cons, List.flatten_cons,
      sanitizeChar_of_legal c (h c (by simp)), ← sanitizeCore_eq_flatten,
      ih (fun x hx => h x (by simp [hx]))]
    rfl

theorem sanitize_append_legal_length (hc : Char) (hrest s1 s2 : Str)
    (hL : ∀ c ∈ hc :: hrest, isLegalSymbolChar c = true)
    (hs1 : ∀ c ∈ s1, isLegalSymbolChar c = true)
    (hs2 : ∀ c ∈ s2, isLegalSymbolChar c = true)
    (hlen : s1.length = s2.length) :
    (sanitize ((hc :: hrest) ++ s1)).length
      = (sanitize ((hc :: hrest) ++ s2)).length := by
  have hleg1 : ∀ c ∈ (hc :: hrest) ++ s1, isLegalSymbolChar c = true := by
    intro c h
    rcases List.mem_append.mp h with h | h
    · exact hL c h
    · exact hs1 c h
  have hleg2 : ∀ c ∈ (hc :: hrest) ++ s2, isLegalSymbolChar c = true := by
    intro c h
    rcases List.mem_append.mp h with h | h
    · exact hL c h
    · exact hs2 c h
  rw [sanitize, sanitize, sanitizeCore_of_legal _ hleg1,
    sanitizeCore_of_legal _ hleg2, List.cons_append, List.cons_append,
    underscoreQualify_cons, underscoreQualify_cons]
  by_cases hP : utf8LeadByte hc ≠ '_'.toNat
      ∧ is_XID_start (Char.ofNat (utf8LeadByte hc)) = false
  · rw [if_pos hP, if_pos hP]
    simp [hlen]
  · rw [if_neg hP, if_neg hP]
    simp [hlen]

theorem sanitize_append_legal_ne (hc : Char) (hrest s1 s2 : Str)
    (hL : ∀ c ∈ hc :: hrest, isLegalSymbolChar c = true)
    (hs1 : ∀ c ∈ s1, isLegalSymbolChar c = true)
    (hs2 : ∀ c ∈ s2, isLegalSymbolChar c = true)
    (hne : s1 ≠ s2) :
    sanitize ((hc :: hrest) ++ s1) ≠ sanitize ((hc :: hrest) ++ s2) := by
  have hleg1 : ∀ c ∈ (hc :: hrest) ++ s1, isLegalSymbolChar c = true := by
    intro c h
    rcases List.mem_append.mp h with h | h
    · exact hL c h
    · exact hs1 c h
  have hleg2 : ∀ c ∈ (hc :: hrest) ++ s2, isLegalSymbolChar c = true := by
    intro c h
    rcases List.mem_append.mp h with h | h
    · exact hL c h
    · exact hs2 c h
  rw [sanitize, sanitize, sanitizeCore_of_legal _ hleg1,
    sanitizeCore_of_legal _ hleg2, List.cons_append, List.cons_append,
    underscoreQualify_cons, underscoreQualify_cons]
  intro h
  apply hne
  by_cases hP : utf8LeadByte hc ≠ '_'.toNat
      ∧ is_XID_start (Char.ofNat (utf8LeadByte hc)) = false
  · rw [if_pos hP, if_pos hP] at h
    injection h with _ h
    injection h with _ h
    exact List.append_cancel_left h
  · rw [if_neg hP, if_neg hP] at h
    injection h with _ h
    exact List.append_cancel_left h

/-- C4 counterexample: the node ids 0 and 238328 = 62^3, with the same path
and the same type-derived hash, extract the same three base-62 characters
and therefore produce identical mangled names, although the identifiers
differ. -/
theorem mangle_exported_name_collision :
    mangle_exported_name [str "a"] (str "h0000000000000000") 0
      = mangle_exported_name [str "a"] (str "h0000000000000000") 238328
    ∧ Nat.blt 0 238328 = true :=
  ⟨by decide, by decide⟩

/-- C4 amended: two calls of `mangle_exported_name` with identical paths,
an identical non-empty hash drawn from the legal symbol character set, and
numeric node identifiers that are incongruent modulo 62^3 = 238328 produce
different mangled names; the name is the path mangled with the hash extended
by exactly three extra characters extracted base-62 from the identifier. -/
theorem mangle_exported_name_disambiguation (path : List Str) (hash : Str)
    (id1 id2 : Nat) (hmod : id1 % 238328 ≠ id2 % 238328)
    (hhash : ∀ c ∈ hash, isLegalSymbolChar c = true) (hne : hash ≠ []) :
    mangle_exported_name path hash id1 ≠ mangle_exported_name path hash id2
    ∧ mangle_exported_name path hash id1
        = exported_name path (hash ++ suffix3 id1)
    ∧ (suffix3 id1).length = 3 := by
  refine ⟨?_, mangle_exported_name_eq path hash id1, rfl⟩
  intro hcontra
  rw [mangle_exported_name_eq, mangle_exported_name_eq] at hcontra
  unfold exported_name at hcontra
  rw [mangle_eq, mangle_eq] at hcontra
  have henc : encodeComponent (hash ++ suffix3 id1)
      = encodeComponent (hash ++ suffix3 id2) :=
    List.append_cancel_left (List.append_cancel_right hcontra)
  rcases hash with _ | ⟨hc, hrest⟩
  · exact hne rfl
  have hsufne : suffix3 id1 ≠ suffix3 id2 :=
    fun e => hmod (suffix3_inj id1 id2 e)
  have hdec : decimalStr (utf8Len (sanitize ((hc :: hrest) ++ suffix3 id1)))
      = decimalStr (utf8Len (sanitize ((hc :: hrest) ++ suffix3 id2))) := by
    rw [utf8Len_sanitize_eq_length, utf8Len_sanitize_eq_length,
      sanitize_append_legal_length hc hrest _ _ hhash (suffix3_legal id1)
        (suffix3_legal id2) rfl]
  have hsan : sanitize ((hc :: hrest) ++ suffix3 id1)
      = sanitize ((hc :: hrest) ++ suffix3 id2) := by
    unfold encodeComponent at henc
    rw [← hdec] at henc
    exact List.append_cancel_left henc
  exact sanitize_append_legal_ne hc hrest _ _ hhash (suffix3_legal id1)
    (suffix3_legal id2) hsufne hsan

/-- C4 witness: the ids 0 and 1 with path `a` and hash `h` give different
mangled names, and the suffix appended to the hash has exactly three
characters. -/
theorem mangle_exported_name_disambiguation_witness :
    mangle_exported_name [str "a"] (str "h") 0
        ≠ mangle_exported_name [str "a"] (str "h") 1
    ∧ mangle_exported_name [str "a"] (str "h") 0
        = exported_name [str "a"] (str "h" ++ suffix3 0)
    ∧ (suffix3 0).length = 3 :=
  mangle_exported_name_disambiguation [str "a"] (str "h") 0 1 (by decide)
    (by decide) (by decide)

/-! Helper lemma about the native-library loop of link_rlib. -/

theorem staticLibLoop_members (libs : List (Str × NativeLibKind))
    (ab : ArchiveBuilder) :
    (libs.foldl (fun ab l =>
        match l.2 with
        | NativeLibKind.NativeStatic => ab.add_native_library l.1
        | NativeLibKind.NativeFramework => ab
        | NativeLibKind.NativeUnknown => ab) ab).members
      = ab.members ++ staticLibMembers libs := by
  induction libs generalizing ab with
  | nil => simp [staticLibMembers]
  | cons l ls ih =>
    rcases l with ⟨nm, k⟩
    cases k <;> rw [List.foldl_cons, ih] <;>
      simp [staticLibMembers, ArchiveBuilder.add_native_library,
        List.append_assoc]

/-- C5: building an rlib with metadata and bytecode requested puts the object
file first, then the native static libraries, and the metadata and
compressed-bytecode members are exactly the final two members — strictly
after every object member, and in particular after the object file O. -/
theorem link_rlib_member_order (obj : Str) (libs : List (Str × NativeLibKind))
    (osx : Bool) :
    (link_rlib true obj libs osx).members
        = ArchiveMember.file obj :: (staticLibMembers libs
            ++ [ArchiveMember.file METADATA_FILENAME,
                ArchiveMember.file (bytecodeName obj)])
    ∧ (link_rlib true obj libs osx).members.head?
        = some (ArchiveMember.file obj)
    ∧ (link_rlib true obj libs osx).members.drop
          (1 + (staticLibMembers libs).length)
        = [ArchiveMember.file METADATA_FILENAME,
           ArchiveMember.file (bytecodeName obj)]
    ∧ (link_rlib true obj libs osx).members.take
          (1 + (staticLibMembers libs).length)
        = ArchiveMember.file obj :: staticLibMembers libs := by
  have hEq : (link_rlib true obj libs osx).members
      = ArchiveMember.file obj :: (staticLibMembers libs
          ++ [ArchiveMember.file METADATA_FILENAME,
              ArchiveMember.file (bytecodeName obj)]) := by
    unfold link_rlib
    cases osx <;>
      simp [ArchiveBuilder.create, ArchiveBuilder.add_file,
        ArchiveBuilder.update_symbols, ArchiveBuilder.build,
        ArchiveBuilder.extend, staticLibLoop_members, List.append_assoc]
  have hsplit : ArchiveMember.file obj :: (staticLibMembers libs
      ++ [ArchiveMember.file METADATA_FILENAME,
          ArchiveMember.file (bytecodeName obj)])
      = (ArchiveMember.file obj :: staticLibMembers libs)
        ++ [ArchiveMember.file METADATA_FILENAME,
            ArchiveMember.file (bytecodeName obj)] := by
    simp
  have hlen : 1 + (staticLibMembers libs).length
      = (ArchiveMember.file obj :: staticLibMembers libs).length := by
    simp [Nat.add_comm]
  refine ⟨hEq, by rw [hEq]; rfl, ?_, ?_⟩
  · rw [hEq, hsplit, hlen, List.drop_left]
  · rw [hEq, hsplit, hlen, List.take_left]

/-- C6: under LTO, `add_static_crate` removes the member named after the
crate file stem with a `.o` suffix from the copied archive, and puts the
archive on the link line exactly when a member ending in `.o` remains; an
archive holding only `crate.o` is excluded, one that also held a
native-library object is kept. -/
theorem add_static_crate_lto_pruning (crateFileName : Str)
    (members : List Str) :
    (add_static_crate true crateFileName members).2
        = removeFile members
            (((crateFileName.take (crateFileName.length - 5)).drop 3)
              ++ str ".o")
    ∧ (add_static_crate true crateFileName members).1
        = ((add_static_crate true crateFileName members).2.any
            (fun s => (str ".o").isSuffixOf s))
    ∧ add_static_crate true (str "libcrate.rlib") [str "crate.o"]
        = (false, [])
    ∧ add_static_crate true (str "libcrate.rlib")
          [str "crate.o", str "libfoo.o"]
        = (true, [str "libfoo.o"]) :=
  ⟨rfl, rfl, by decide, by decide⟩

/-- C7: `Target::verify` returns the spec unchanged when every one of the
five required fields has been overwritten from the unset sentinel, and
returns nothing as soon as any one of them still holds the sentinel; in
particular `Target::empty` fails verification. -/
theorem Target.verify_spec (t : Target) :
    Target.verify t
        = (if (t.data_layout == unsetSentinel)
              || (t.llvm_target == unsetSentinel)
              || (t.target_endian == unsetSentinel)
              || (t.target_word_size == unsetSentinel)
              || (t.arch == unsetSentinel)
           then none else some t)
    ∧ Target.verify Target.empty = none := by
  constructor
  · by_cases h1 : t.data_layout = unsetSentinel <;>
      by_cases h2 : t.llvm_target = unsetSentinel <;>
      by_cases h3 : t.target_endian = unsetSentinel <;>
      by_cases h4 : t.target_word_size = unsetSentinel <;>
      by_cases h5 : t.arch = unsetSentinel <;>
      simp [Target.verify, h1, h2, h3, h4, h5]
  · decide

/-- C8 counterexample: an output kind the target does not support (a dylib
on a target without dynamic linking) is reported through the internal-error
channel `bug`, with no `err` event and no abort-if-errors check following
it, unlike what the claim states for configuration errors. -/
theorem link_binary_invalid_output_bug :
    link_binary_check false true CrateType.CrateTypeDylib
        = [DiagEvent.bug (str "invalid output type for target os")]
    ∧ (link_binary_check false true CrateType.CrateTypeDylib).count
        DiagEvent.abortIfErrors = 0
    ∧ (link_binary_check false true CrateType.CrateTypeDylib).countP
        (fun e => match e with | DiagEvent.err _ => true | _ => false) = 0 :=
  ⟨by decide, by decide, by decide⟩

/-- C8 amended: an unknown relocation model and an unknown code model are
each reported through an `err` event followed by an explicit abort-if-errors
check, so both kinds of model errors avoid an immediate unwind; an output
kind unsupported by the target is instead reported through `bug`, the
internal-invariant channel that aborts immediately. -/
theorem config_error_reporting (reloc_model_arg code_model_arg : Str)
    (dynamic_linking executables : Bool) (crate_type : CrateType) :
    (parseRelocModel reloc_model_arg = none →
       run_passes_config reloc_model_arg code_model_arg
         = ([DiagEvent.err (str "is not a valid relocation mode"),
             DiagEvent.abortIfErrors], none))
    ∧ (∀ rm, parseRelocModel reloc_model_arg = some rm →
         parseCodeModel code_model_arg = none →
         run_passes_config reloc_model_arg code_model_arg
           = ([DiagEvent.err (str "is not a valid code model"),
               DiagEvent.abortIfErrors], none))
    ∧ (invalid_output_for_target dynamic_linking executables crate_type
          = true →
        link_binary_check dynamic_linking executables crate_type
          = [DiagEvent.bug (str "invalid output type for target os")]) := by
  refine ⟨?_, ?_, ?_⟩
  · intro h
    simp [run_passes_config, h]
  · intro rm h1 h2
    simp [run_passes_config, h1, h2]
  · intro h
    simp [link_binary_check, h]

/-- C8 witness: the unknown relocation model `bogus` produces the err event
followed by the abort-if-errors check, and an unsupported output kind
produces the bug event. -/
theorem config_error_reporting_witness :
    run_passes_config (str "bogus") (str "default")
        = ([DiagEvent.err (str "is not a valid relocation mode"),
            DiagEvent.abortIfErrors], none)
    ∧ link_binary_check false true CrateType.CrateTypeDylib
        = [DiagEvent.bug (str "invalid output type for target os")] :=
  ⟨(config_error_reporting (str "bogus") (str "default") false true
      CrateType.CrateTypeDylib).1 (by decide),
   (config_error_reporting (str "bogus") (str "default") false true
      CrateType.CrateTypeDylib).2.2 (by decide)⟩

/-- C9: artifact file names derive from the crate name and the
extra-filename suffix: `lib<name><extra>.rlib` for rlibs,
`lib<name><extra>.a` for staticlibs, dll prefix and suffix around the base
name for dylibs, and the exe suffix applied as the extension for
executables; for crate `foo` with no extra suffix this yields `libfoo.rlib`,
`libfoo.a`, `libfoo.so` with prefix `lib` and suffix `.so`, and `foo` with
an empty exe suffix. -/
theorem filename_for_input_spec (t : Target) (name extra out : Str) :
    filename_for_input CrateType.CrateTypeRlib t name extra out
        = str "lib" ++ (name ++ extra) ++ str ".rlib"
    ∧ filename_for_input CrateType.CrateTypeStaticlib t name extra out
        = str "lib" ++ (name ++ extra) ++ str ".a"
    ∧ filename_for_input CrateType.CrateTypeDylib t name extra out
        = t.dll_prefix_str ++ (name ++ extra) ++ t.dll_suffix
    ∧ filename_for_input CrateType.CrateTypeExecutable t name extra out
        = withExtension out t.exe_suffix
    ∧ filename_for_input CrateType.CrateTypeRlib Target.empty (str "foo") []
        (str "foo") = str "libfoo.rlib"
    ∧ filename_for_input CrateType.CrateTypeStaticlib Target.empty
        (str "foo") [] (str "foo") = str "libfoo.a"
    ∧ filename_for_input CrateType.CrateTypeDylib Target.empty (str "foo")
        [] (str "foo") = str "libfoo.so"
    ∧ filename_for_input CrateType.CrateTypeExecutable Target.empty
        (str "foo") [] (str "foo") = str "foo" :=
  ⟨by simp [filename_for_input, List.append_assoc],
   by simp [filename_for_input, List.append_assoc],
   by simp [filename_for_input, List.append_assoc],
   rfl, by decide, by decide, by decide, by decide⟩

/-- C10: the pre-flight writability check treats a path whose status cannot
be read as writeable, so the fatal not-writeable diagnostics of
`link_binary_output` arise only from an existing file whose permission bits
lack the user-write bit: the check emits the output-file fatal when the
output stat lacks the bit, otherwise the object-file fatal when the object
stat lacks the bit, and nothing when both stats are errors. -/
theorem is_writeable_spec (obj_stat out_stat : Option Nat) (perm : Nat) :
    is_writeable none = true
    ∧ is_writeable (some perm) = (perm &&& UserWrite == UserWrite)
    ∧ link_binary_output_check obj_stat out_stat
        = (if is_writeable out_stat then
             (if is_writeable obj_stat then []
              else [DiagEvent.fatal
                (str "object file is not writeable -- check its permissions.")])
           else [DiagEvent.fatal
             (str "output file is not writeable -- check its permissions.")])
    ∧ link_binary_output_check none none = [] := by
  refine ⟨rfl, rfl, ?_, rfl⟩
  cases h1 : is_writeable out_stat <;> cases h2 : is_writeable obj_stat <;>
    simp [link_binary_output_check, h1, h2]

end Link
